import Mathlib

/-!
Verification of the optimistic mutation protocol shared by the state-management
variants of the post-manager repository.

The protocol lives in the per-variant stores:
  * the zustand store (`usePostsStore`): `fetchPosts`, `createPost`,
    `updatePost`, `deletePost`;
  * the context-api provider (`PostsProvider`): `createPost`, `updatePost`,
    `deletePost` (functional `setPosts` updates);
  * the recoil actions (`postsState.ts`): `createPostAction`,
    `updatePostAction`, `deletePostAction` (these close over the `posts`
    array captured at call start instead of using functional updates).

Each store operation is embedded as a pure function from the remote outcome
and the starting store state to an `OpTrace`: the observable state right
after the optimistic step (`mid`), the state after reconciliation or
rollback (`final`), and the value returned or thrown to the caller
(`result`).  JavaScript `Error` values are modelled by their message.
-/

/-- A record: `Post` from `@post-manager/types`
(`{id: number, userId: number, title: string, body: string}`). -/
structure Post where
  id : Int
  userId : Int
  title : String
  body : String
deriving Repr, DecidableEq

/-- `Omit<Post, 'id'>`: the payload of a create call. -/
structure PostData where
  userId : Int
  title : String
  body : String
deriving Repr, DecidableEq

/-- `Partial<Post>` as every caller in the repository actually builds it
(`PostForm` submits `Omit<Post, 'id'>` payloads; no caller ever puts an `id`
into an update payload): an optional value for each non-id field.  A `none`
field is absent from the JS object. -/
structure PostPatch where
  userId : Option Int := none
  title : Option String := none
  body : Option String := none
deriving Repr, DecidableEq

/-- A JavaScript `Error`, modelled by its message string (every failure the
stores see or throw is a plain `new Error(message)`). -/
structure JsError where
  message : String
deriving Repr, DecidableEq

/-- Outcome of one remote call (`postsApi.*`): either the resolved value or
the `Error` the promise was rejected with. -/
inductive RemoteResult (α : Type) where
  | ok (value : α)
  | err (e : JsError)
deriving Repr, DecidableEq

/-- The store state `{posts, loading, error}` shared by the variants. -/
structure StoreState where
  posts : List Post
  loading : Bool
  error : Option JsError
deriving Repr, DecidableEq

/-- Trace of one store operation: state after the optimistic step (`mid`),
state after reconciliation / rollback (`final`), and the value returned to
(`Except.ok`) or thrown at (`Except.error`) the caller. -/
structure OpTrace (α : Type) where
  mid : StoreState
  final : StoreState
  result : Except JsError α
deriving Repr

/-- The ids of the records of a collection, in order. -/
def ids (l : List Post) : List Int := l.map Post.id

/-- `{id: tempId, ...data}`: the optimistic placeholder built by `createPost`. -/
def mkPost (id : Int) (data : PostData) : Post :=
  { id := id, userId := data.userId, title := data.title, body := data.body }

/-- `{...p, ...data}`: shallow merge of an update payload onto a record;
fields absent from the payload are retained. -/
def mergePost (p : Post) (d : PostPatch) : Post :=
  { id := p.id
    userId := d.userId.getD p.userId
    title := d.title.getD p.title
    body := d.body.getD p.body }

/-- `new Error('Post not found')`, thrown by `updatePost` / `deletePost`
when the target id is absent. -/
def notFoundError : JsError := ⟨"Post not found"⟩

/-- Ascending order of records by `id`. -/
def postLe (a b : Post) : Prop := a.id ≤ b.id

instance : DecidableRel postLe := fun a b =>
  (inferInstance : Decidable (a.id ≤ b.id))

instance : IsTotal Post postLe := ⟨fun a b => Int.le_total a.id b.id⟩

instance : IsTrans Post postLe := ⟨fun _ _ _ h h' => Int.le_trans h h'⟩

/-- `.sort((a, b) => a.id - b.id)`: the stable ascending sort by `id`
(ES2019 `Array.prototype.sort` is stable; a stable sort by a key is
insertion sort by that key). -/
def sortById (l : List Post) : List Post := List.insertionSort postLe l

namespace Zustand

/-- `fetchPosts` of the zustand store: set `loading = true`, `error = null`,
call `postsApi.getAll()`; on success replace `posts` wholesale, on failure
record the error.  Failures are swallowed (the function returns void). -/
def fetchPosts (outcome : RemoteResult (List Post)) (s : StoreState) :
    OpTrace Unit :=
  let mid : StoreState := { s with loading := true, error := none }
  match outcome with
  | .ok data =>
      { mid := mid
        final := { mid with posts := data, loading := false }
        result := .ok () }
  | .err e =>
      { mid := mid
        final := { mid with error := some e, loading := false }
        result := .ok () }

/-- `createPost` of the zustand store.  `tempId` stands for the `Date.now()`
value synthesized at call start.  Optimistic step: prepend the placeholder.
On success: map-replace the record whose id is `tempId` by the server
record; on failure: filter the placeholder out, set `error`, re-throw. -/
def createPost (tempId : Int) (data : PostData) (outcome : RemoteResult Post)
    (s : StoreState) : OpTrace Post :=
  let optimisticPost : Post := mkPost tempId data
  let mid : StoreState := { s with posts := optimisticPost :: s.posts }
  match outcome with
  | .ok newPost =>
      { mid := mid
        final := { mid with
          posts := mid.posts.map fun p => if p.id == tempId then newPost else p }
        result := .ok newPost }
  | .err e =>
      { mid := mid
        final := { mid with
          posts := mid.posts.filter fun p => p.id != tempId
          error := some e }
        result := .error e }

/-- `updatePost` of the zustand store.  If the target id is absent, throw
`new Error('Post not found')` synchronously (the remote is never invoked
and the state is untouched).  Otherwise: optimistic shallow merge in place,
reconcile with the server record on success, restore the snapshot and set
`error` on failure, re-throwing. -/
def updatePost (id : Int) (data : PostPatch) (outcome : RemoteResult Post)
    (s : StoreState) : OpTrace Post :=
  match s.posts.find? (fun p => p.id == id) with
  | none => { mid := s, final := s, result := .error notFoundError }
  | some originalPost =>
    let mid : StoreState :=
      { s with posts := s.posts.map fun p => if p.id == id then mergePost p data else p }
    match outcome with
    | .ok updatedPost =>
        { mid := mid
          final := { mid with
            posts := mid.posts.map fun p => if p.id == id then updatedPost else p }
          result := .ok updatedPost }
    | .err e =>
        { mid := mid
          final := { mid with
            posts := mid.posts.map fun p => if p.id == id then originalPost else p
            error := some e }
          result := .error e }

/-- `deletePost` of the zustand store.  If the target id is absent, throw
`new Error('Post not found')` synchronously.  Otherwise: optimistic filter,
nothing further on success; on failure re-append the snapshot and sort the
whole collection ascending by id, set `error`, re-throw. -/
def deletePost (id : Int) (outcome : RemoteResult Unit) (s : StoreState) :
    OpTrace Unit :=
  match s.posts.find? (fun p => p.id == id) with
  | none => { mid := s, final := s, result := .error notFoundError }
  | some postToDelete =>
    let mid : StoreState := { s with posts := s.posts.filter fun p => p.id != id }
    match outcome with
    | .ok _ => { mid := mid, final := mid, result := .ok () }
    | .err e =>
        { mid := mid
          final := { mid with
            posts := sortById (mid.posts ++ [postToDelete])
            error := some e }
          result := .error e }

end Zustand

namespace ContextApi

/-- `createPost` of the context-api `PostsProvider`.  Every `setPosts` uses a
functional update (`prev => ...`), so it operates on the current collection;
on failure the wrapped error is set and thrown. -/
def createPost (tempId : Int) (data : PostData) (outcome : RemoteResult Post)
    (s : StoreState) : OpTrace Post :=
  let optimisticPost : Post := mkPost tempId data
  let mid : StoreState := { s with posts := optimisticPost :: s.posts }
  match outcome with
  | .ok newPost =>
      { mid := mid
        final := { mid with
          posts := mid.posts.map fun p => if p.id == tempId then newPost else p }
        result := .ok newPost }
  | .err e =>
      { mid := mid
        final := { mid with
          posts := mid.posts.filter fun p => p.id != tempId
          error := some e }
        result := .error e }

/-- `updatePost` of the context-api `PostsProvider` (functional `setPosts`
updates; `'Post not found'` thrown synchronously on an absent target). -/
def updatePost (id : Int) (data : PostPatch) (outcome : RemoteResult Post)
    (s : StoreState) : OpTrace Post :=
  match s.posts.find? (fun p => p.id == id) with
  | none => { mid := s, final := s, result := .error notFoundError }
  | some originalPost =>
    let mid : StoreState :=
      { s with posts := s.posts.map fun p => if p.id == id then mergePost p data else p }
    match outcome with
    | .ok updatedPost =>
        { mid := mid
          final := { mid with
            posts := mid.posts.map fun p => if p.id == id then updatedPost else p }
          result := .ok updatedPost }
    | .err e =>
        { mid := mid
          final := { mid with
            posts := mid.posts.map fun p => if p.id == id then originalPost else p
            error := some e }
          result := .error e }

/-- `deletePost` of the context-api `PostsProvider` (functional `setPosts`
updates; rollback re-appends the snapshot and sorts ascending by id). -/
def deletePost (id : Int) (outcome : RemoteResult Unit) (s : StoreState) :
    OpTrace Unit :=
  match s.posts.find? (fun p => p.id == id) with
  | none => { mid := s, final := s, result := .error notFoundError }
  | some postToDelete =>
    let mid : StoreState := { s with posts := s.posts.filter fun p => p.id != id }
    match outcome with
    | .ok _ => { mid := mid, final := mid, result := .ok () }
    | .err e =>
        { mid := mid
          final := { mid with
            posts := sortById (mid.posts ++ [postToDelete])
            error := some e }
          result := .error e }

end ContextApi

namespace Recoil

/-- `createPostAction` of the recoil store.  Unlike the other variants, its
`setPosts` calls pass plain values computed from the `posts` array captured
at call start: the success branch runs `setPosts(posts.map(...))` over the
pre-optimistic snapshot, overwriting the optimistic prepend. -/
def createPostAction (tempId : Int) (data : PostData)
    (outcome : RemoteResult Post) (s : StoreState) : OpTrace Post :=
  let optimisticPost : Post := mkPost tempId data
  let mid : StoreState := { s with posts := optimisticPost :: s.posts }
  match outcome with
  | .ok newPost =>
      { mid := mid
        final := { mid with
          posts := s.posts.map fun p => if p.id == tempId then newPost else p }
        result := .ok newPost }
  | .err e =>
      { mid := mid
        final := { mid with
          posts := s.posts.filter fun p => p.id != tempId
          error := some e }
        result := .error e }

/-- `updatePostAction` of the recoil store (all `setPosts` values are
computed from the `posts` array captured at call start). -/
def updatePostAction (id : Int) (data : PostPatch)
    (outcome : RemoteResult Post) (s : StoreState) : OpTrace Post :=
  match s.posts.find? (fun p => p.id == id) with
  | none => { mid := s, final := s, result := .error notFoundError }
  | some originalPost =>
    let mid : StoreState :=
      { s with posts := s.posts.map fun p => if p.id == id then mergePost p data else p }
    match outcome with
    | .ok updatedPost =>
        { mid := mid
          final := { mid with
            posts := s.posts.map fun p => if p.id == id then updatedPost else p }
          result := .ok updatedPost }
    | .err e =>
        { mid := mid
          final := { mid with
            posts := s.posts.map fun p => if p.id == id then originalPost else p
            error := some e }
          result := .error e }

/-- `deletePostAction` of the recoil store.  The rollback branch runs
`setPosts([...posts, postToDelete].sort(...))` over the snapshot captured
before the optimistic removal, which still contains the deleted record. -/
def deletePostAction (id : Int) (outcome : RemoteResult Unit)
    (s : StoreState) : OpTrace Unit :=
  match s.posts.find? (fun p => p.id == id) with
  | none => { mid := s, final := s, result := .error notFoundError }
  | some postToDelete =>
    let mid : StoreState := { s with posts := s.posts.filter fun p => p.id != id }
    match outcome with
    | .ok _ => { mid := mid, final := mid, result := .ok () }
    | .err e =>
        { mid := mid
          final := { mid with
            posts := sortById (s.posts ++ [postToDelete])
            error := some e }
          result := .error e }

end Recoil

lemma mergePost_id (p : Post) (d : PostPatch) : (mergePost p d).id = p.id := rfl

lemma mkPost_id (t : Int) (d : PostData) : (mkPost t d).id = t := rfl

lemma not_mem_ids {t : Int} {l : List Post} (h : t ∉ ids l) :
    ∀ p ∈ l, p.id ≠ t := by
  intro p hp hc
  exact h (by simp only [ids, List.mem_map]; exact ⟨p, hp, hc⟩)

lemma mem_ids_of {t : Int} {l : List Post} {p : Post} (hp : p ∈ l)
    (hc : p.id = t) : t ∈ ids l := by
  simp only [ids, List.mem_map]
  exact ⟨p, hp, hc⟩

lemma map_if_eq_self {t : Int} {g : Post → Post} {l : List Post}
    (h : ∀ p ∈ l, p.id ≠ t) :
    (l.map fun p => if p.id == t then g p else p) = l := by
  induction l with
  | nil => rfl
  | cons a l ih =>
    have ha : (a.id == t) = false :=
      beq_eq_false_iff_ne.mpr (h a (List.mem_cons_self a l))
    have ih' := ih fun p hp => h p (List.mem_cons_of_mem a hp)
    have hstep : (if (a.id == t) = true then g a else a) = a :=
      if_neg (by simp [ha])
    rw [List.map_cons, hstep, ih']

lemma filter_ne_eq_self {t : Int} {l : List Post}
    (h : ∀ p ∈ l, p.id ≠ t) :
    (l.filter fun p => p.id != t) = l := by
  induction l with
  | nil => rfl
  | cons a l ih =>
    have ha : (a.id != t) = true := by
      simp [h a (List.mem_cons_self a l)]
    have ih' := ih fun p hp => h p (List.mem_cons_of_mem a hp)
    simp [List.filter_cons, ha, ih']

lemma find?_id_eq_none {t : Int} {l : List Post}
    (h : ∀ p ∈ l, p.id ≠ t) :
    (l.find? fun p => p.id == t) = none :=
  List.find?_eq_none.mpr fun p hp => by simp [h p hp]

lemma find?_id_decomp {l1 l2 : List Post} {r : Post} {i : Int}
    (h1 : ∀ p ∈ l1, p.id ≠ i) (hr : r.id = i) :
    ((l1 ++ r :: l2).find? fun p => p.id == i) = some r := by
  rw [List.find?_append, find?_id_eq_none h1,
    List.find?_cons_of_pos _ (by simp [hr])]
  rfl

lemma map_if_decomp {l1 l2 : List Post} {r : Post} {i : Int} {g : Post → Post}
    (h1 : ∀ p ∈ l1, p.id ≠ i) (h2 : ∀ p ∈ l2, p.id ≠ i) (hr : r.id = i) :
    ((l1 ++ r :: l2).map fun p => if p.id == i then g p else p) =
      l1 ++ g r :: l2 := by
  rw [List.map_append, map_if_eq_self h1, List.map_cons, map_if_eq_self h2]
  simp [hr]

lemma filter_ne_decomp {l1 l2 : List Post} {r : Post} {i : Int}
    (h1 : ∀ p ∈ l1, p.id ≠ i) (h2 : ∀ p ∈ l2, p.id ≠ i) (hr : r.id = i) :
    ((l1 ++ r :: l2).filter fun p => p.id != i) = l1 ++ l2 := by
  rw [List.filter_append, filter_ne_eq_self h1]
  simp [List.filter_cons, hr, filter_ne_eq_self h2]

lemma ids_map_if {l : List Post} {i : Int} {g : Post → Post}
    (hg : ∀ p, p.id = i → (g p).id = p.id) :
    ids (l.map fun p => if p.id == i then g p else p) = ids l := by
  simp only [ids, List.map_map]
  apply List.map_congr_left
  intro p _
  show Post.id (if p.id == i then g p else p) = p.id
  by_cases h : p.id = i
  · simp [h, hg p h]
  · simp [h]

lemma nodup_ids_filter {l : List Post} {f : Post → Bool}
    (hnd : (ids l).Nodup) : (ids (l.filter f)).Nodup :=
  hnd.sublist ((List.filter_sublist l).map Post.id)

lemma sortById_perm (l : List Post) : (sortById l).Perm l :=
  List.perm_insertionSort postLe l

lemma sortById_sorted (l : List Post) : List.Sorted postLe (sortById l) :=
  List.sorted_insertionSort postLe l

/-- One protocol operation together with the environment data it consumes:
the `Date.now()` value and the server-assigned record for a create, the
server record for an update.  Used for runs in which every remote call
succeeds. -/
inductive Op where
  | createOp (tempId : Int) (data : PostData) (server : Post)
  | updateOp (targetId : Int) (data : PostPatch) (server : Post)
  | deleteOp (targetId : Int)
deriving Repr

/-- Observable state right after the optimistic step of an operation. -/
def midOp : Op → StoreState → StoreState
  | .createOp t d srv, s => (Zustand.createPost t d (.ok srv) s).mid
  | .updateOp i d srv, s => (Zustand.updatePost i d (.ok srv) s).mid
  | .deleteOp i, s => (Zustand.deletePost i (.ok ()) s).mid

/-- State after the reconciliation of a successful operation. -/
def runOp : Op → StoreState → StoreState
  | .createOp t d srv, s => (Zustand.createPost t d (.ok srv) s).final
  | .updateOp i d srv, s => (Zustand.updatePost i d (.ok srv) s).final
  | .deleteOp i, s => (Zustand.deletePost i (.ok ()) s).final

/-- Environment conditions the spec imposes on one successful operation: a
create's temporary id is "unique, non-colliding with real ids", the
server-assigned id of a created record is fresh (it may coincide with the
temporary id it replaces), and a successful update returns the record at
the updated id.  Deletes need nothing. -/
def opOk : Op → StoreState → Bool
  | .createOp t _ srv, s =>
      decide (t ∉ ids s.posts) &&
        (srv.id == t || decide (srv.id ∉ ids s.posts))
  | .updateOp i _ srv, _ => srv.id == i
  | .deleteOp _, _ => true

/-- `opOk` holding at every step of a run. -/
def okRun : List Op → StoreState → Bool
  | [], _ => true
  | op :: rest, s => opOk op s && okRun rest (runOp op s)

/-- All observable collections of a run: after each optimistic step and
after each reconciliation. -/
def observables : List Op → StoreState → List (List Post)
  | [], _ => []
  | op :: rest, s =>
      (midOp op s).posts :: (runOp op s).posts :: observables rest (runOp op s)

lemma createPost_ok_final_posts {t : Int} {d : PostData} {srv : Post}
    {s : StoreState} (hfresh : t ∉ ids s.posts) :
    (Zustand.createPost t d (.ok srv) s).final.posts = srv :: s.posts := by
  show ((mkPost t d :: s.posts).map fun p => if p.id == t then srv else p) = _
  rw [List.map_cons, map_if_eq_self (not_mem_ids hfresh)]
  simp [mkPost]

lemma step_nodup (op : Op) (s : StoreState) (hok : opOk op s = true)
    (hnd : (ids s.posts).Nodup) :
    (ids (midOp op s).posts).Nodup ∧ (ids (runOp op s).posts).Nodup := by
  cases op with
  | createOp t d srv =>
    simp only [opOk, Bool.and_eq_true, Bool.or_eq_true, decide_eq_true_eq,
      beq_iff_eq] at hok
    obtain ⟨hfresh, hsrv⟩ := hok
    have hmid : (midOp (.createOp t d srv) s).posts = mkPost t d :: s.posts := rfl
    have hfin : (runOp (.createOp t d srv) s).posts = srv :: s.posts :=
      createPost_ok_final_posts hfresh
    refine ⟨?_, ?_⟩
    · rw [hmid]
      exact List.nodup_cons.mpr ⟨by simpa [ids, mkPost] using hfresh, hnd⟩
    · rw [hfin]
      refine List.nodup_cons.mpr ⟨?_, hnd⟩
      rcases hsrv with h | h
      · rw [h]; simpa [ids] using hfresh
      · simpa [ids] using h
  | updateOp i d srv =>
    simp only [opOk, beq_iff_eq] at hok
    cases hfind : s.posts.find? (fun p => p.id == i) with
    | none =>
      have hm : midOp (.updateOp i d srv) s = s := by
        simp [midOp, Zustand.updatePost, hfind]
      have hr : runOp (.updateOp i d srv) s = s := by
        simp [runOp, Zustand.updatePost, hfind]
      rw [hm, hr]
      exact ⟨hnd, hnd⟩
    | some orig =>
      have hm : (midOp (.updateOp i d srv) s).posts =
          s.posts.map fun p => if p.id == i then mergePost p d else p := by
        simp [midOp, Zustand.updatePost, hfind]
      have hr : (runOp (.updateOp i d srv) s).posts =
          (s.posts.map fun p => if p.id == i then mergePost p d else p).map
            fun p => if p.id == i then srv else p := by
        simp [runOp, Zustand.updatePost, hfind]
      have hids1 : ids ((s.posts.map fun p => if p.id == i then mergePost p d else p)) =
          ids s.posts := ids_map_if fun p _ => mergePost_id p d
      have hids2 := ids_map_if
        (l := s.posts.map fun p => if p.id == i then mergePost p d else p)
        (g := fun _ => srv) (fun p hp => by rw [hok, hp])
      refine ⟨?_, ?_⟩
      · rw [hm, hids1]; exact hnd
      · rw [hr, hids2, hids1]; exact hnd
  | deleteOp i =>
    cases hfind : s.posts.find? (fun p => p.id == i) with
    | none =>
      have hm : midOp (.deleteOp i) s = s := by
        simp [midOp, Zustand.deletePost, hfind]
      have hr : runOp (.deleteOp i) s = s := by
        simp [runOp, Zustand.deletePost, hfind]
      rw [hm, hr]
      exact ⟨hnd, hnd⟩
    | some r =>
      have hm : (midOp (.deleteOp i) s).posts =
          s.posts.filter fun p => p.id != i := by
        simp [midOp, Zustand.deletePost, hfind]
      have hr : (runOp (.deleteOp i) s).posts =
          s.posts.filter fun p => p.id != i := by
        simp [runOp, Zustand.deletePost, hfind]
      rw [hm, hr]
      exact ⟨nodup_ids_filter hnd, nodup_ids_filter hnd⟩

/-- C1: started from a collection whose record ids are pairwise distinct,
every run of create/update/delete operations whose remote calls all succeed
(with the spec-mandated environment: temporary ids "unique, non-colliding
with real ids", server-assigned ids fresh, a successful update returning
the record at the updated id) keeps the ids pairwise distinct at every
observable point — after each optimistic step and after each
reconciliation. -/
theorem id_uniqueness_invariant (ops : List Op) (s : StoreState)
    (hnd : (ids s.posts).Nodup) (hok : okRun ops s = true) :
    ∀ l ∈ observables ops s, (ids l).Nodup := by
  induction ops generalizing s with
  | nil => intro l hl; simp [observables] at hl
  | cons op rest ih =>
    simp only [okRun, Bool.and_eq_true] at hok
    obtain ⟨h1, h2⟩ := hok
    have hstep := step_nodup op s h1 hnd
    intro l hl
    simp only [observables, List.mem_cons] at hl
    rcases hl with rfl | rfl | hl
    · exact hstep.1
    · exact hstep.2
    · exact ih (runOp op s) hstep.2 h2 l hl

/-- Witness for C1 on a concrete run: a create (temp id 1000, server id
101), an update of id 2, and a delete of id 1 on a two-record store. -/
theorem id_uniqueness_invariant_witness :
    ((ids ([⟨1, 1, "a", "b"⟩, ⟨2, 1, "c", "d"⟩] : List Post)).Nodup ∧
      okRun
        [Op.createOp 1000 ⟨1, "A", "B"⟩ ⟨101, 1, "A", "B"⟩,
          Op.updateOp 2 ⟨none, some "T", none⟩ ⟨2, 1, "T", "d"⟩,
          Op.deleteOp 1]
        ⟨[⟨1, 1, "a", "b"⟩, ⟨2, 1, "c", "d"⟩], false, none⟩ = true) ∧
    ∀ l ∈ observables
        [Op.createOp 1000 ⟨1, "A", "B"⟩ ⟨101, 1, "A", "B"⟩,
          Op.updateOp 2 ⟨none, some "T", none⟩ ⟨2, 1, "T", "d"⟩,
          Op.deleteOp 1]
        ⟨[⟨1, 1, "a", "b"⟩, ⟨2, 1, "c", "d"⟩], false, none⟩, (ids l).Nodup :=
  ⟨⟨by decide, by decide⟩,
    id_uniqueness_invariant _ _ (by decide) (by decide)⟩

/-- C2: with a fresh temporary id, a create whose remote call succeeds with
record `newPost` first shows the placeholder `{id: tempId, ...data}` as the
collection's first element, then reconciles by replacing it in place: the
element at that position becomes exactly `newPost`, the rest of the
collection is untouched, and `newPost` is returned to the caller. -/
theorem create_optimism_reconciliation (tempId : Int) (data : PostData)
    (newPost : Post) (s : StoreState) (hfresh : tempId ∉ ids s.posts) :
    (Zustand.createPost tempId data (.ok newPost) s).mid.posts =
      mkPost tempId data :: s.posts ∧
    (Zustand.createPost tempId data (.ok newPost) s).final.posts =
      newPost :: s.posts ∧
    (Zustand.createPost tempId data (.ok newPost) s).result = .ok newPost :=
  ⟨rfl, createPost_ok_final_posts hfresh, rfl⟩

/-- Witness for C2: creating `{title: "A", body: "B", userId: 1}` with temp
id 1000 over a one-record store, the server answering with id 101. -/
theorem create_optimism_reconciliation_witness :
    ((1000 : Int) ∉ ids ([⟨7, 2, "t", "b"⟩] : List Post)) ∧
    ((Zustand.createPost 1000 ⟨1, "A", "B"⟩ (.ok ⟨101, 1, "A", "B"⟩)
        ⟨[⟨7, 2, "t", "b"⟩], false, none⟩).mid.posts =
      mkPost 1000 ⟨1, "A", "B"⟩ :: [⟨7, 2, "t", "b"⟩] ∧
    (Zustand.createPost 1000 ⟨1, "A", "B"⟩ (.ok ⟨101, 1, "A", "B"⟩)
        ⟨[⟨7, 2, "t", "b"⟩], false, none⟩).final.posts =
      ⟨101, 1, "A", "B"⟩ :: [⟨7, 2, "t", "b"⟩] ∧
    (Zustand.createPost 1000 ⟨1, "A", "B"⟩ (.ok ⟨101, 1, "A", "B"⟩)
        ⟨[⟨7, 2, "t", "b"⟩], false, none⟩).result = .ok ⟨101, 1, "A", "B"⟩) :=
  ⟨by decide, create_optimism_reconciliation 1000 ⟨1, "A", "B"⟩
    ⟨101, 1, "A", "B"⟩ ⟨[⟨7, 2, "t", "b"⟩], false, none⟩ (by decide)⟩

/-- C3: with a fresh temporary id, a create whose remote call fails rolls
the collection back to exactly its pre-call contents (the placeholder is
removed entirely), sets the store's `error` field to the failure, and
re-throws it to the caller. -/
theorem create_rollback (tempId : Int) (data : PostData) (e : JsError)
    (s : StoreState) (hfresh : tempId ∉ ids s.posts) :
    (Zustand.createPost tempId data (.err e) s).final.posts = s.posts ∧
    (Zustand.createPost tempId data (.err e) s).final.error = some e ∧
    (Zustand.createPost tempId data (.err e) s).result = .error e := by
  refine ⟨?_, rfl, rfl⟩
  show ((mkPost tempId data :: s.posts).filter fun p => p.id != tempId) = s.posts
  have hhead : ((mkPost tempId data).id != tempId) = false := by simp [mkPost]
  rw [List.filter_cons]
  simp [hhead, filter_ne_eq_self (not_mem_ids hfresh)]

/-- Witness for C3: a failing create (temp id 1000) over a two-record
store; the collection is restored verbatim. -/
theorem create_rollback_witness :
    ((1000 : Int) ∉ ids ([⟨3, 1, "x", "u"⟩, ⟨5, 1, "y", "v"⟩] : List Post)) ∧
    ((Zustand.createPost 1000 ⟨1, "A", "B"⟩ (.err ⟨"Failed to create post"⟩)
        ⟨[⟨3, 1, "x", "u"⟩, ⟨5, 1, "y", "v"⟩], false, none⟩).final.posts =
      [⟨3, 1, "x", "u"⟩, ⟨5, 1, "y", "v"⟩] ∧
    (Zustand.createPost 1000 ⟨1, "A", "B"⟩ (.err ⟨"Failed to create post"⟩)
        ⟨[⟨3, 1, "x", "u"⟩, ⟨5, 1, "y", "v"⟩], false, none⟩).final.error =
      some ⟨"Failed to create post"⟩ ∧
    (Zustand.createPost 1000 ⟨1, "A", "B"⟩ (.err ⟨"Failed to create post"⟩)
        ⟨[⟨3, 1, "x", "u"⟩, ⟨5, 1, "y", "v"⟩], false, none⟩).result =
      .error ⟨"Failed to create post"⟩) :=
  ⟨by decide, create_rollback 1000 ⟨1, "A", "B"⟩ ⟨"Failed to create post"⟩
    ⟨[⟨3, 1, "x", "u"⟩, ⟨5, 1, "y", "v"⟩], false, none⟩ (by decide)⟩

/-- C4: if the collection holds exactly one record `r` with id `i` (here at
an explicit position, between `l1` and `l2`), `updatePost i d` immediately
replaces it in place by the shallow merge of `d` onto `r`, and if the
remote call then fails the entry at `i` is restored to exactly `r`, the
`error` field is set to the failure and the failure is re-thrown. -/
theorem update_optimism_rollback (l1 l2 : List Post) (r : Post) (i : Int)
    (d : PostPatch) (e : JsError) (ld : Bool) (err0 : Option JsError)
    (hr : r.id = i) (h1 : ∀ p ∈ l1, p.id ≠ i) (h2 : ∀ p ∈ l2, p.id ≠ i) :
    (Zustand.updatePost i d (.err e) ⟨l1 ++ r :: l2, ld, err0⟩).mid.posts =
      l1 ++ mergePost r d :: l2 ∧
    (Zustand.updatePost i d (.err e) ⟨l1 ++ r :: l2, ld, err0⟩).final.posts =
      l1 ++ r :: l2 ∧
    (Zustand.updatePost i d (.err e) ⟨l1 ++ r :: l2, ld, err0⟩).final.error =
      some e ∧
    (Zustand.updatePost i d (.err e) ⟨l1 ++ r :: l2, ld, err0⟩).result =
      .error e := by
  have hfind : ((l1 ++ r :: l2).find? fun p => p.id == i) = some r :=
    find?_id_decomp h1 hr
  have hmid : ((l1 ++ r :: l2).map fun p => if p.id == i then mergePost p d else p) =
      l1 ++ mergePost r d :: l2 := map_if_decomp h1 h2 hr
  have hmr : (mergePost r d).id = i := by rw [mergePost_id, hr]
  have hfin : ((l1 ++ mergePost r d :: l2).map fun p => if p.id == i then r else p) =
      l1 ++ r :: l2 := map_if_decomp (g := fun _ => r) h1 h2 hmr
  refine ⟨?_, ?_, ?_, ?_⟩ <;> unfold Zustand.updatePost <;> rw [hfind]
  · exact hmid
  · show ((l1 ++ r :: l2).map fun p => if p.id == i then mergePost p d else p).map
        (fun p => if p.id == i then r else p) = l1 ++ r :: l2
    rw [hmid]
    exact hfin

/-- Witness for C4: updating the title of `{id: 5, title: "X"}` to `"Y"`,
the remote call failing; the original record returns verbatim. -/
theorem update_optimism_rollback_witness :
    ((⟨5, 1, "X", "bx"⟩ : Post).id = 5 ∧
      (∀ p ∈ ([⟨3, 1, "w", "u"⟩] : List Post), p.id ≠ (5 : Int)) ∧
      (∀ p ∈ ([⟨7, 1, "z", "v"⟩] : List Post), p.id ≠ (5 : Int))) ∧
    ((Zustand.updatePost 5 ⟨none, some "Y", none⟩ (.err ⟨"Failed to update post"⟩)
        ⟨[⟨3, 1, "w", "u"⟩] ++ (⟨5, 1, "X", "bx"⟩ : Post) :: [⟨7, 1, "z", "v"⟩], false, none⟩).mid.posts =
      [⟨3, 1, "w", "u"⟩] ++ mergePost ⟨5, 1, "X", "bx"⟩ ⟨none, some "Y", none⟩ :: [⟨7, 1, "z", "v"⟩] ∧
    (Zustand.updatePost 5 ⟨none, some "Y", none⟩ (.err ⟨"Failed to update post"⟩)
        ⟨[⟨3, 1, "w", "u"⟩] ++ (⟨5, 1, "X", "bx"⟩ : Post) :: [⟨7, 1, "z", "v"⟩], false, none⟩).final.posts =
      [⟨3, 1, "w", "u"⟩] ++ (⟨5, 1, "X", "bx"⟩ : Post) :: [⟨7, 1, "z", "v"⟩] ∧
    (Zustand.updatePost 5 ⟨none, some "Y", none⟩ (.err ⟨"Failed to update post"⟩)
        ⟨[⟨3, 1, "w", "u"⟩] ++ (⟨5, 1, "X", "bx"⟩ : Post) :: [⟨7, 1, "z", "v"⟩], false, none⟩).final.error =
      some ⟨"Failed to update post"⟩ ∧
    (Zustand.updatePost 5 ⟨none, some "Y", none⟩ (.err ⟨"Failed to update post"⟩)
        ⟨[⟨3, 1, "w", "u"⟩] ++ (⟨5, 1, "X", "bx"⟩ : Post) :: [⟨7, 1, "z", "v"⟩], false, none⟩).result =
      .error ⟨"Failed to update post"⟩) :=
  ⟨⟨by decide, by decide, by decide⟩,
    update_optimism_rollback [⟨3, 1, "w", "u"⟩] [⟨7, 1, "z", "v"⟩]
      ⟨5, 1, "X", "bx"⟩ 5 ⟨none, some "Y", none⟩ ⟨"Failed to update post"⟩
      false none (by decide) (by decide) (by decide)⟩

/-- C5: if the collection holds exactly one record `r` with id `i`,
`deletePost i` immediately removes exactly that record, the others kept in
order; if the remote call then fails, `r` is re-inserted and the resulting
collection is a permutation of the original in ascending-id order, with
`error` set and the failure re-thrown. -/
theorem delete_optimism_rollback (l1 l2 : List Post) (r : Post) (i : Int)
    (e : JsError) (ld : Bool) (err0 : Option JsError)
    (hr : r.id = i) (h1 : ∀ p ∈ l1, p.id ≠ i) (h2 : ∀ p ∈ l2, p.id ≠ i) :
    (Zustand.deletePost i (.err e) ⟨l1 ++ r :: l2, ld, err0⟩).mid.posts =
      l1 ++ l2 ∧
    (Zustand.deletePost i (.err e) ⟨l1 ++ r :: l2, ld, err0⟩).final.posts.Perm
      (l1 ++ r :: l2) ∧
    List.Sorted postLe
      (Zustand.deletePost i (.err e) ⟨l1 ++ r :: l2, ld, err0⟩).final.posts ∧
    (Zustand.deletePost i (.err e) ⟨l1 ++ r :: l2, ld, err0⟩).final.error =
      some e ∧
    (Zustand.deletePost i (.err e) ⟨l1 ++ r :: l2, ld, err0⟩).result =
      .error e := by
  have hfind : ((l1 ++ r :: l2).find? fun p => p.id == i) = some r :=
    find?_id_decomp h1 hr
  have hfil : ((l1 ++ r :: l2).filter fun p => p.id != i) = l1 ++ l2 :=
    filter_ne_decomp h1 h2 hr
  have hfinal :
      (Zustand.deletePost i (.err e) ⟨l1 ++ r :: l2, ld, err0⟩).final.posts =
        sortById ((l1 ++ l2) ++ [r]) := by
    unfold Zustand.deletePost
    rw [hfind]
    show sortById (((l1 ++ r :: l2).filter fun p => p.id != i) ++ [r]) = _
    rw [hfil]
  refine ⟨?_, ?_, ?_, ?_, ?_⟩
  · unfold Zustand.deletePost
    rw [hfind]
    exact hfil
  · rw [hfinal]
    exact (sortById_perm _).trans
      ((List.perm_append_singleton r (l1 ++ l2)).trans List.perm_middle.symm)
  · rw [hfinal]
    exact sortById_sorted _
  · unfold Zustand.deletePost
    rw [hfind]
  · unfold Zustand.deletePost
    rw [hfind]

/-- Witness for C5: deleting id 5 from a collection with ids `[3, 5, 7]`,
the remote call failing; the collection becomes `[3, 5, 7]` again. -/
theorem delete_optimism_rollback_witness :
    (((⟨5, 1, "b", "y"⟩ : Post).id = 5) ∧
      (∀ p ∈ ([⟨3, 1, "a", "x"⟩] : List Post), p.id ≠ (5 : Int)) ∧
      (∀ p ∈ ([⟨7, 1, "c", "z"⟩] : List Post), p.id ≠ (5 : Int))) ∧
    ((Zustand.deletePost 5 (.err ⟨"Failed to delete post"⟩)
        ⟨[⟨3, 1, "a", "x"⟩] ++ (⟨5, 1, "b", "y"⟩ : Post) :: [⟨7, 1, "c", "z"⟩], false, none⟩).mid.posts =
      [⟨3, 1, "a", "x"⟩] ++ [⟨7, 1, "c", "z"⟩] ∧
    (Zustand.deletePost 5 (.err ⟨"Failed to delete post"⟩)
        ⟨[⟨3, 1, "a", "x"⟩] ++ (⟨5, 1, "b", "y"⟩ : Post) :: [⟨7, 1, "c", "z"⟩], false, none⟩).final.posts.Perm
      ([⟨3, 1, "a", "x"⟩] ++ (⟨5, 1, "b", "y"⟩ : Post) :: [⟨7, 1, "c", "z"⟩]) ∧
    List.Sorted postLe
      (Zustand.deletePost 5 (.err ⟨"Failed to delete post"⟩)
        ⟨[⟨3, 1, "a", "x"⟩] ++ (⟨5, 1, "b", "y"⟩ : Post) :: [⟨7, 1, "c", "z"⟩], false, none⟩).final.posts ∧
    (Zustand.deletePost 5 (.err ⟨"Failed to delete post"⟩)
        ⟨[⟨3, 1, "a", "x"⟩] ++ (⟨5, 1, "b", "y"⟩ : Post) :: [⟨7, 1, "c", "z"⟩], false, none⟩).final.error =
      some ⟨"Failed to delete post"⟩ ∧
    (Zustand.deletePost 5 (.err ⟨"Failed to delete post"⟩)
        ⟨[⟨3, 1, "a", "x"⟩] ++ (⟨5, 1, "b", "y"⟩ : Post) :: [⟨7, 1, "c", "z"⟩], false, none⟩).result =
      .error ⟨"Failed to delete post"⟩) :=
  ⟨⟨by decide, by decide, by decide⟩,
    delete_optimism_rollback [⟨3, 1, "a", "x"⟩] [⟨7, 1, "c", "z"⟩]
      ⟨5, 1, "b", "y"⟩ 5 ⟨"Failed to delete post"⟩ false none
      (by decide) (by decide) (by decide)⟩

/-- C6: when id `i` is absent from the collection, `updatePost` and
`deletePost` fail synchronously with the `'Post not found'` error and, for
every possible remote outcome (i.e. independently of the remote operation,
which is never invoked), leave the whole store state — records and `error`
field — unchanged. -/
theorem absent_target_noop (i : Int) (d : PostPatch) (s : StoreState)
    (habsent : (s.posts.find? fun p => p.id == i) = none) :
    (∀ o : RemoteResult Post,
      Zustand.updatePost i d o s = ⟨s, s, .error notFoundError⟩) ∧
    (∀ o : RemoteResult Unit,
      Zustand.deletePost i o s = ⟨s, s, .error notFoundError⟩) := by
  constructor <;> intro o <;>
    simp [Zustand.updatePost, Zustand.deletePost, habsent]

/-- Witness for C6: id 9 is absent from a one-record store. -/
theorem absent_target_noop_witness :
    ((([⟨4, 1, "q", "w"⟩] : List Post).find? fun p => p.id == (9 : Int)) = none) ∧
    ((∀ o : RemoteResult Post,
      Zustand.updatePost 9 ⟨none, some "Z", none⟩ o ⟨[⟨4, 1, "q", "w"⟩], false, none⟩ =
        ⟨⟨[⟨4, 1, "q", "w"⟩], false, none⟩, ⟨[⟨4, 1, "q", "w"⟩], false, none⟩,
          .error notFoundError⟩) ∧
    (∀ o : RemoteResult Unit,
      Zustand.deletePost 9 o ⟨[⟨4, 1, "q", "w"⟩], false, none⟩ =
        ⟨⟨[⟨4, 1, "q", "w"⟩], false, none⟩, ⟨[⟨4, 1, "q", "w"⟩], false, none⟩,
          .error notFoundError⟩)) :=
  ⟨by decide,
    absent_target_noop 9 ⟨none, some "Z", none⟩
      ⟨[⟨4, 1, "q", "w"⟩], false, none⟩ (by decide)⟩

/-- C7: a fetch clears `error` and raises `loading` at its start; when the
remote call succeeds with sequence `data`, the collection equals `data`
exactly — prior contents discarded, whatever they were — and `loading` is
back to false. -/
theorem fetch_replaces_wholesale (data : List Post) (s : StoreState) :
    (Zustand.fetchPosts (.ok data) s).mid.error = none ∧
    (Zustand.fetchPosts (.ok data) s).mid.loading = true ∧
    (Zustand.fetchPosts (.ok data) s).final.posts = data ∧
    (Zustand.fetchPosts (.ok data) s).final.loading = false ∧
    (Zustand.fetchPosts (.ok data) s).final.error = none :=
  ⟨rfl, rfl, rfl, rfl, rfl⟩

lemma map_if_map_if (l : List Post) (i : Int) (d : PostPatch) (q : Post) :
    ((l.map fun p => if p.id == i then mergePost p d else p).map
      fun p => if p.id == i then q else p) =
    l.map fun p => if p.id == i then q else p := by
  rw [List.map_map]
  apply List.map_congr_left
  intro p _
  show (fun p => if p.id == i then q else p)
    (if p.id == i then mergePost p d else p) = if p.id == i then q else p
  by_cases h : p.id = i
  · simp [h, mergePost_id]
  · simp [h]

/-- C8, amended: the context-api and zustand transformers are extensionally
equal on all three operations for every argument and remote outcome; the
recoil variant agrees with them on update (both outcomes), on a failing
create and on a successful delete.  (Its remaining two paths — successful
create and failing delete — genuinely differ, because its `setPosts` calls
use the `posts` array captured at call start: see the counterexample.) -/
theorem variant_equivalence :
    (∀ (t : Int) (d : PostData) (o : RemoteResult Post) (s : StoreState),
      ContextApi.createPost t d o s = Zustand.createPost t d o s) ∧
    (∀ (i : Int) (d : PostPatch) (o : RemoteResult Post) (s : StoreState),
      ContextApi.updatePost i d o s = Zustand.updatePost i d o s) ∧
    (∀ (i : Int) (o : RemoteResult Unit) (s : StoreState),
      ContextApi.deletePost i o s = Zustand.deletePost i o s) ∧
    (∀ (i : Int) (d : PostPatch) (o : RemoteResult Post) (s : StoreState),
      Recoil.updatePostAction i d o s = Zustand.updatePost i d o s) ∧
    (∀ (t : Int) (d : PostData) (e : JsError) (s : StoreState),
      Recoil.createPostAction t d (.err e) s = Zustand.createPost t d (.err e) s) ∧
    (∀ (i : Int) (s : StoreState),
      Recoil.deletePostAction i (.ok ()) s = Zustand.deletePost i (.ok ()) s) := by
  refine ⟨fun t d o s => rfl, fun i d o s => rfl, fun i o s => rfl,
    fun i d o s => ?_, fun t d e s => ?_, fun i s => rfl⟩
  · cases hfind : s.posts.find? (fun p => p.id == i) with
    | none =>
      unfold Recoil.updatePostAction Zustand.updatePost
      rw [hfind]
    | some orig =>
      cases o with
      | ok u =>
        unfold Recoil.updatePostAction Zustand.updatePost
        rw [hfind]
        show OpTrace.mk
            ⟨s.posts.map fun p => if p.id == i then mergePost p d else p,
              s.loading, s.error⟩
            ⟨s.posts.map fun p => if p.id == i then u else p,
              s.loading, s.error⟩ (.ok u) =
          OpTrace.mk
            ⟨s.posts.map fun p => if p.id == i then mergePost p d else p,
              s.loading, s.error⟩
            ⟨(s.posts.map fun p => if p.id == i then mergePost p d else p).map
              fun p => if p.id == i then u else p,
              s.loading, s.error⟩ (.ok u)
        rw [map_if_map_if]
      | err e =>
        unfold Recoil.updatePostAction Zustand.updatePost
        rw [hfind]
        show OpTrace.mk
            ⟨s.posts.map fun p => if p.id == i then mergePost p d else p,
              s.loading, s.error⟩
            ⟨s.posts.map fun p => if p.id == i then orig else p,
              s.loading, some e⟩ (.error e) =
          OpTrace.mk
            ⟨s.posts.map fun p => if p.id == i then mergePost p d else p,
              s.loading, s.error⟩
            ⟨(s.posts.map fun p => if p.id == i then mergePost p d else p).map
              fun p => if p.id == i then orig else p,
              s.loading, some e⟩ (.error e)
        rw [map_if_map_if]
  · unfold Recoil.createPostAction Zustand.createPost
    have hhead : ((mkPost t d).id != t) = false := by simp [mkPost]
    show OpTrace.mk _ ⟨s.posts.filter fun p => p.id != t, _, _⟩ _ =
      OpTrace.mk _ ⟨(mkPost t d :: s.posts).filter fun p => p.id != t, _, _⟩ _
    rw [List.filter_cons, hhead]
    rfl

/-- Counterexample for C8 as stated: on a successful create the recoil
variant drops the authoritative record (its success `setPosts` maps over
the pre-optimistic snapshot), and on a failing delete it re-inserts the
snapshot into the un-deleted capture, duplicating the record; both final
states differ from the zustand/context-api ones at these concrete inputs. -/
theorem variant_equivalence_counterexample :
    (Recoil.createPostAction 1000 ⟨1, "A", "B"⟩ (.ok ⟨101, 1, "A", "B"⟩)
        ⟨[], false, none⟩).final ≠
      (Zustand.createPost 1000 ⟨1, "A", "B"⟩ (.ok ⟨101, 1, "A", "B"⟩)
        ⟨[], false, none⟩).final ∧
    (Recoil.deletePostAction 3 (.err ⟨"Failed to delete post"⟩)
        ⟨[⟨3, 1, "t", "b"⟩], false, none⟩).final ≠
      (Zustand.deletePost 3 (.err ⟨"Failed to delete post"⟩)
        ⟨[⟨3, 1, "t", "b"⟩], false, none⟩).final := by decide

/-- C9: the rollback of a failed delete sorts the whole collection
ascending by id, so records unrelated to the delete move: here an
optimistically-prepended placeholder with temporary id 1000 sits at the
head of the collection, and a failed delete of the unrelated id 3 moves it
to the back. -/
theorem delete_rollback_repositions_unrelated :
    ids (⟨[⟨1000, 1, "draft", "pending"⟩, ⟨3, 1, "t3", "b3"⟩, ⟨5, 1, "t5", "b5"⟩],
        false, none⟩ : StoreState).posts = [1000, 3, 5] ∧
    ids (Zustand.deletePost 3 (.err ⟨"Failed to delete post"⟩)
        ⟨[⟨1000, 1, "draft", "pending"⟩, ⟨3, 1, "t3", "b3"⟩, ⟨5, 1, "t5", "b5"⟩],
          false, none⟩).mid.posts = [1000, 5] ∧
    ids (Zustand.deletePost 3 (.err ⟨"Failed to delete post"⟩)
        ⟨[⟨1000, 1, "draft", "pending"⟩, ⟨3, 1, "t3", "b3"⟩, ⟨5, 1, "t5", "b5"⟩],
          false, none⟩).final.posts = [3, 5, 1000] := by decide

/-- C10: an update or delete of an absent id throws the ordinary error
`'Post not found'`, a value of the same type (`JsError`, modelling a plain
JS `Error`) as the error a failed remote call is re-thrown with; the two
taxonomy cases reach the caller distinguished only by their message
strings. -/
theorem error_taxonomy_by_message (i : Int) (d : PostPatch) (s : StoreState)
    (habsent : (s.posts.find? fun p => p.id == i) = none)
    (t : Int) (c : PostData) (m : String) (s2 : StoreState) :
    (∀ o : RemoteResult Post,
      (Zustand.updatePost i d o s).result = .error ⟨"Post not found"⟩) ∧
    (∀ o : RemoteResult Unit,
      (Zustand.deletePost i o s).result = .error ⟨"Post not found"⟩) ∧
    (Zustand.createPost t c (.err ⟨m⟩) s2).result = .error ⟨m⟩ := by
  refine ⟨fun o => ?_, fun o => ?_, rfl⟩ <;>
    simp [Zustand.updatePost, Zustand.deletePost, habsent, notFoundError]

/-- Witness for C10: id 8 absent from a one-record store; a failing create
carries the api wrapper's message the same way. -/
theorem error_taxonomy_by_message_witness :
    ((([⟨2, 1, "p", "q"⟩] : List Post).find? fun p => p.id == (8 : Int)) = none) ∧
    ((∀ o : RemoteResult Post,
      (Zustand.updatePost 8 ⟨none, none, some "B2"⟩ o
        ⟨[⟨2, 1, "p", "q"⟩], false, none⟩).result = .error ⟨"Post not found"⟩) ∧
    (∀ o : RemoteResult Unit,
      (Zustand.deletePost 8 o
        ⟨[⟨2, 1, "p", "q"⟩], false, none⟩).result = .error ⟨"Post not found"⟩) ∧
    (Zustand.createPost 50 ⟨1, "N", "M"⟩ (.err ⟨"Failed to create post"⟩)
        ⟨[], false, none⟩).result = .error ⟨"Failed to create post"⟩) :=
  ⟨by decide,
    error_taxonomy_by_message 8 ⟨none, none, some "B2"⟩
      ⟨[⟨2, 1, "p", "q"⟩], false, none⟩ (by decide) 50 ⟨1, "N", "M"⟩
      "Failed to create post" ⟨[], false, none⟩⟩
